import Mathlib

/-!
Shallow embedding of the task-lifecycle client of the `taskforceai-sdk-go`
repository: the polling state machine (`WaitForCompletion` in `client.go`),
task submission (`SubmitTask` in `client.go`) and the server-sent-event
decoder (`sseStream.Next` in `stream.go`), together with theorems settling
the specification claims about them.

Modelling conventions:
* Go `error` values are modelled by inductive error types carrying the
  message strings the Go code builds with `fmt.Errorf`.
* The network is modelled as an oracle function supplied to the embedded
  operation; the number of oracle invocations is returned explicitly so
  "issues zero network requests" is a provable statement.
* `context.Context` cancellation is modelled by explicit booleans: for the
  poller, a per-iteration flag saying whether `ctx.Done()` wins the `select`
  against the poll-interval timer; for the stream, a flag on the stream
  state saying whether the governing context is cancelled.
* Real-time durations (`pollInterval`, timeouts) only affect pacing, never
  the sequence of observable actions, so they are carried as numbers but do
  not influence the model's results.
* `encoding/json` is Go standard-library code, external to the repository;
  where a claim depends on a concrete unmarshalling result the theorem is
  parameterised over the decode function and hypotheses record the decode
  results the claim assumes, exactly as the spec states them.
-/

/-- `TaskStatus` from `types.go`: the wire shape of a task status.
`metadata` is `map[string]interface{}` in Go; its values are opaque to every
operation modelled here, so they are modelled as strings. -/
structure TaskStatus where
  taskId : String
  status : String
  result : Option String
  error : Option String
  warnings : List String
  metadata : List (String × String)
  deriving Repr, DecidableEq

/-- The Go zero value `TaskStatus\x7b\x7d`. -/
def TaskStatus.empty : TaskStatus :=
  { taskId := "", status := "", result := none, error := none,
    warnings := [], metadata := [] }

/-- `TaskSubmissionOptions` from `types.go`. -/
structure TaskSubmissionOptions where
  modelId : String
  silent : Bool
  mock : Bool
  vercelAiKey : String
  metadata : List (String × String)
  deriving Repr, DecidableEq

/-- `DefaultMaxPoll` from `client.go` (60 attempts). -/
def DefaultMaxPoll : Nat := 60

/-- `DefaultPollInterval` from `client.go`, in milliseconds. -/
def DefaultPollIntervalMs : Nat := 1000

/-- The effective attempt bound of `WaitForCompletion`: the Go code replaces
a zero `maxAttempts` argument by `DefaultMaxPoll`. -/
def effMaxAttempts (maxAttempts : Nat) : Nat :=
  if maxAttempts = 0 then DefaultMaxPoll else maxAttempts

/-- The Go `error` results `WaitForCompletion` can produce, with the message
strings the Go code builds. `fetchError` is an error propagated from
`GetTaskStatus`; `cancelled` is `ctx.Err()` (message "context canceled");
`timeout` carries the message "task timed out". -/
inductive PollError where
  | fetchError (e : String)
  | taskFailed (msg : String)
  | cancelled
  | timeout
  deriving Repr, DecidableEq

/-- The message string of the Go error each `PollError` stands for. -/
def PollError.message : PollError → String
  | .fetchError e => e
  | .taskFailed m => m
  | .cancelled => "context canceled"
  | .timeout => "task timed out"

/-- The observable outcome of a `WaitForCompletion` run: the `TaskStatus`
and error it returns, how many `GetTaskStatus` fetches it performed, and the
list of statuses it passed to the per-update callback, in call order. -/
structure PollOutcome where
  finalStatus : TaskStatus
  errMsg : Option PollError
  fetches : Nat
  callbackCalls : List TaskStatus
  deriving Repr, DecidableEq

/-- The poll loop of `WaitForCompletion` (`client.go` lines 147-175),
starting at iteration index `i` with `remaining` attempts left.
`fetch j` is the result of the `j`-th `GetTaskStatus` call;
`cancelW j` says whether `ctx.Done()` wins the `select` at the end of
iteration `j`.  Each iteration: fetch once, propagating a fetch error with
the zero status; invoke the callback with the fetched status; return it on
`"completed"`; fail with the task-failed message on `"failed"`; otherwise
wait, returning the status with `ctx.Err()` if cancellation fires during
the wait.  Exhausting the attempts yields the timeout error with the zero
status. -/
def pollFrom (fetch : Nat → Except String TaskStatus) (cancelW : Nat → Bool)
    (i : Nat) : Nat → PollOutcome
  | 0 =>
    { finalStatus := TaskStatus.empty, errMsg := some .timeout,
      fetches := 0, callbackCalls := [] }
  | r + 1 =>
    match fetch i with
    | .error e =>
      { finalStatus := TaskStatus.empty, errMsg := some (.fetchError e),
        fetches := 1, callbackCalls := [] }
    | .ok st =>
      if st.status = "completed" then
        { finalStatus := st, errMsg := none, fetches := 1, callbackCalls := [st] }
      else if st.status = "failed" then
        { finalStatus := st,
          errMsg := some (.taskFailed ("task failed: " ++ st.error.getD "task failed")),
          fetches := 1, callbackCalls := [st] }
      else if cancelW i then
        { finalStatus := st, errMsg := some .cancelled,
          fetches := 1, callbackCalls := [st] }
      else
        let rest := pollFrom fetch cancelW (i + 1) r
        { finalStatus := rest.finalStatus, errMsg := rest.errMsg,
          fetches := rest.fetches + 1, callbackCalls := st :: rest.callbackCalls }

/-- `WaitForCompletion` from `client.go`: substitute the defaults for zero
`pollInterval`/`maxAttempts` and run the poll loop from iteration 0.
The interval only paces the loop in real time, so it does not appear in the
outcome. -/
def WaitForCompletion (fetch : Nat → Except String TaskStatus)
    (cancelW : Nat → Bool) (pollIntervalMs maxAttempts : Nat) : PollOutcome :=
  let _interval := if pollIntervalMs = 0 then DefaultPollIntervalMs else pollIntervalMs
  pollFrom fetch cancelW 0 (effMaxAttempts maxAttempts)

/-- A status with an unknown, non-terminal `status` string, used as a
concrete input. -/
def processingT : TaskStatus :=
  { taskId := "t", status := "processing", result := none, error := none,
    warnings := [], metadata := [] }

/-! ## Task submission (`SubmitTask`, `client.go` lines 88-117) -/

/-- The request `SubmitTask` builds: `POST /run` with JSON body
`\x7bprompt, options?\x7d`. -/
structure SubmitRequest where
  method : String
  path : String
  bodyPrompt : String
  bodyOptions : Option TaskSubmissionOptions
  deriving Repr, DecidableEq

/-- A decoded HTTP response to a submission.  `bodyJson = none` models a
body that is not valid JSON (`json.Decoder.Decode` fails); `bodyJson = some
obj` models a valid JSON object whose string-valued fields are listed in
`obj`.  Only the `"taskId"` field is ever read by the modelled code. -/
structure SubmitResponse where
  statusCode : Nat
  bodyJson : Option (List (String × String))
  deriving Repr, DecidableEq

/-- The Go `error` results `SubmitTask` can produce. -/
inductive SubmitError where
  | invalidArgument (msg : String)
  | transport (e : String)
  | apiError (statusCode : Nat)
  | decodeError
  deriving Repr, DecidableEq

/-- The request value `SubmitTask` passes to `doRequest`. -/
def submitRequestFor (prompt : String) (opts : Option TaskSubmissionOptions) :
    SubmitRequest :=
  { method := "POST", path := "/run", bodyPrompt := prompt, bodyOptions := opts }

/-- `SubmitTask` from `client.go`: reject an empty prompt before any network
activity; otherwise issue one `POST /run`; a non-200/202 status is an API
error; a body that fails to decode is a decode error; otherwise the result
is the decoded `taskId` field, which Go's `encoding/json` leaves at the
zero value `""` when the field is absent.  The second component counts
invocations of the network oracle `net`. -/
def SubmitTask (net : SubmitRequest → Except String SubmitResponse)
    (prompt : String) (opts : Option TaskSubmissionOptions) :
    Except SubmitError String × Nat :=
  if prompt = "" then
    (.error (.invalidArgument "prompt is required"), 0)
  else
    match net (submitRequestFor prompt opts) with
    | .error e => (.error (.transport e), 1)
    | .ok resp =>
      if resp.statusCode ≠ 200 ∧ resp.statusCode ≠ 202 then
        (.error (.apiError resp.statusCode), 1)
      else
        match resp.bodyJson with
        | none => (.error .decodeError, 1)
        | some obj => (.ok (((obj.lookup "taskId").getD "")), 1)

/-! ## SSE stream decoder (`sseStream.Next`, `stream.go` lines 68-95) -/

/-- The Go `error` results `Next` can produce: `cancelled` is
`s.ctx.Err()`; `endOfStream` is `io.EOF` from the buffered reader;
`decodeError` is a `json.Unmarshal` failure on the recorded payload. -/
inductive StreamErr where
  | cancelled
  | endOfStream
  | decodeError (payload : List Char)
  deriving Repr, DecidableEq

/-- `bufio.Reader.ReadString('\n')` on the remaining bytes of an exhausted
connection: the first line including its newline, and the remaining bytes.
`none` models the `io.EOF` case — no newline remains, and the Go code
discards any partial data because it returns whenever `err != nil`. -/
def readLine : List Char → Option (List Char × List Char)
  | [] => none
  | c :: cs =>
    if c = '\n' then some ([c], cs)
    else
      match readLine cs with
      | none => none
      | some (l, r) => some (c :: l, r)

/-- `strings.TrimSpace`: drop whitespace from both ends. -/
def trimChars (cs : List Char) : List Char :=
  ((cs.dropWhile Char.isWhitespace).reverse.dropWhile Char.isWhitespace).reverse

theorem readLine_rest_length :
    ∀ (cs l r : List Char), readLine cs = some (l, r) → r.length < cs.length := by
  intro cs
  induction cs with
  | nil => intro l r h; simp [readLine] at h
  | cons c cs ih =>
    intro l r h
    simp only [readLine] at h
    by_cases hc : c = '\n'
    · simp [hc] at h
      simp [← h.2]
    · simp only [if_neg hc] at h
      cases hr : readLine cs with
      | none => rw [hr] at h; simp at h
      | some p =>
        rw [hr] at h
        cases p with
        | mk l' r' =>
          simp at h
          have := ih l' r' hr
          simp [← h.2]
          omega

/-- The read loop of `Next`, with the context-cancellation flag checked
before every read, structured exactly as the Go `for` loop: read a line
(EOF propagates), trim it, skip blank lines and comment lines, decode the
payload of a `data:` line (trim after stripping the 5-byte prefix), and
skip lines matching neither shape.  Returns the result of `Next` together
with the bytes still unconsumed in the reader.  `decode` models
`json.Unmarshal` into `TaskStatus`. -/
def nextFrom (decode : List Char → Option TaskStatus) (cancelled : Bool)
    (input : List Char) : Except StreamErr TaskStatus × List Char :=
  if cancelled then (.error .cancelled, input)
  else
    match h : readLine input with
    | none => (.error .endOfStream, input)
    | some (l, rest) =>
      let line := trimChars l
      if line = [] ∨ (":".toList).isPrefixOf line then
        nextFrom decode cancelled rest
      else if ("data:".toList).isPrefixOf line then
        match decode (trimChars (line.drop 5)) with
        | none => (.error (.decodeError (trimChars (line.drop 5))), rest)
        | some st => (.ok st, rest)
      else
        nextFrom decode cancelled rest
termination_by input.length
decreasing_by
  all_goals exact readLine_rest_length input _ _ h

/-- The state of an `sseStream`: the cancellation status of its governing
context, and the bytes of the (exhausted) connection not yet consumed by
its buffered reader. -/
structure sseStream where
  cancelled : Bool
  input : List Char
  deriving Repr, DecidableEq

/-- `sseStream.Next`: run the read loop and thread the reader state. -/
def sseStream.Next (decode : List Char → Option TaskStatus) (s : sseStream) :
    Except StreamErr TaskStatus × sseStream :=
  let (r, rest) := nextFrom decode s.cancelled s.input
  (r, { cancelled := s.cancelled, input := rest })

/-- A status whose `status` string is `"completed"` and whose `result` is
`"done"`, as decoded from the second example payload. -/
def completedT : TaskStatus :=
  { taskId := "t", status := "completed", result := some "done", error := none,
    warnings := [], metadata := [] }

/-- The first example payload of the spec:
`\x7b"taskId":"t","status":"processing"\x7d`. -/
def payload1 : List Char :=
  "\x7b\"taskId\":\"t\",\"status\":\"processing\"\x7d".toList

/-- The second example payload of the spec:
`\x7b"taskId":"t","status":"completed","result":"done"\x7d`. -/
def payload2 : List Char :=
  "\x7b\"taskId\":\"t\",\"status\":\"completed\",\"result\":\"done\"\x7d".toList

/-- The example byte stream of the spec: two `data:` frames, each followed
by a blank line, then end of input. -/
def exampleBytes : List Char :=
  "data: ".toList ++ payload1 ++ "\n\n".toList ++
    "data: ".toList ++ payload2 ++ "\n\n".toList

/-- The example stream session: governing context live, the example bytes
buffered, connection closed afterwards. -/
def exampleStream : sseStream :=
  { cancelled := false, input := exampleBytes }

theorem sseStream.Next_def (decode : List Char → Option TaskStatus)
    (s : sseStream) :
    sseStream.Next decode s =
      ((nextFrom decode s.cancelled s.input).1,
        { cancelled := s.cancelled,
          input := (nextFrom decode s.cancelled s.input).2 }) := by
  unfold sseStream.Next
  rcases h : nextFrom decode s.cancelled s.input with ⟨r, rest⟩
  simp

theorem nextFrom_cancelled (decode : List Char → Option TaskStatus)
    (input : List Char) :
    nextFrom decode true input = (.error .cancelled, input) := by
  rw [nextFrom]
  rfl

theorem nextFrom_eof (decode : List Char → Option TaskStatus) (input : List Char)
    (h : readLine input = none) :
    nextFrom decode false input = (.error .endOfStream, input) := by
  rw [nextFrom]
  split
  · rename_i hft; simp at hft
  · split
    · rfl
    · rename_i heq
      rw [h] at heq
      simp at heq

theorem nextFrom_skipLine (decode : List Char → Option TaskStatus)
    (input l rest : List Char) (h : readLine input = some (l, rest))
    (hskip : trimChars l = [] ∨ (":".toList).isPrefixOf (trimChars l) ∨
      ¬ ("data:".toList).isPrefixOf (trimChars l)) :
    nextFrom decode false input = nextFrom decode false rest := by
  rw [nextFrom]
  split
  · rename_i hft; simp at hft
  · split
    · rename_i heq
      rw [h] at heq
      simp at heq
    · rename_i l' rest' heq
      rw [h] at heq
      injection heq with heq'
      injection heq' with e1 e2
      subst e1; subst e2
      by_cases hb : trimChars l = [] ∨ (":".toList).isPrefixOf (trimChars l) = true
      · rw [if_pos hb]
      · have h3 : ¬ ("data:".toList).isPrefixOf (trimChars l) = true := by
          rcases hskip with h1 | h2 | h3
          · exact absurd (Or.inl h1) hb
          · exact absurd (Or.inr h2) hb
          · exact h3
        rw [if_neg hb, if_neg h3]

theorem nextFrom_dataLine (decode : List Char → Option TaskStatus)
    (input l rest : List Char) (st : TaskStatus)
    (h : readLine input = some (l, rest))
    (hne : ¬ (trimChars l = [] ∨ (":".toList).isPrefixOf (trimChars l)))
    (hdata : ("data:".toList).isPrefixOf (trimChars l))
    (hdec : decode (trimChars ((trimChars l).drop 5)) = some st) :
    nextFrom decode false input = (.ok st, rest) := by
  rw [nextFrom]
  split
  · rename_i hft; simp at hft
  · split
    · rename_i heq
      rw [h] at heq
      simp at heq
    · rename_i l' rest' heq
      rw [h] at heq
      injection heq with heq'
      injection heq' with e1 e2
      subst e1; subst e2
      simp only [if_neg hne, if_pos hdata, hdec]


/-- C6: `Next` checks the governing cancellation context before attempting
any read: on a stream whose context is already cancelled, `Next` fails
immediately with `Cancelled` (the `ctx.Err()` of `stream.go` line 72), and
the buffered bytes are returned unconsumed — for every buffer content, so
in particular no read result is ever inspected. -/
theorem claim_C6_cancelled_before_read (decode : List Char → Option TaskStatus)
    (input : List Char) :
    sseStream.Next decode { cancelled := true, input := input } =
      (.error .cancelled, { cancelled := true, input := input }) := by
  simp [sseStream.Next, nextFrom_cancelled]

/-- C5: the decoder's `Next` skips blank lines and comment lines (prefix
`":"`), skips lines matching neither the comment nor the data shape, and on
a `data:` line strips the 5-byte prefix, trims whitespace and returns the
JSON-decoded `TaskStatus` (first two conjuncts, for every input and every
decode function).  On the spec's concrete example bytes, with
`json.Unmarshal` decoding the two payloads to the processing and completed
statuses, three successive `Next` calls yield the processing status, the
completed status, and the `EndOfStream` (`io.EOF`) error, in that order. -/
theorem claim_C5_stream_decoding (decode : List Char → Option TaskStatus)
    (h1 : decode payload1 = some processingT)
    (h2 : decode payload2 = some completedT) :
    (∀ input l rest, readLine input = some (l, rest) →
      (trimChars l = [] ∨ (":".toList).isPrefixOf (trimChars l) ∨
        ¬ ("data:".toList).isPrefixOf (trimChars l)) →
      nextFrom decode false input = nextFrom decode false rest) ∧
    (∀ input l rest st, readLine input = some (l, rest) →
      ¬ (trimChars l = [] ∨ (":".toList).isPrefixOf (trimChars l)) →
      ("data:".toList).isPrefixOf (trimChars l) →
      decode (trimChars ((trimChars l).drop 5)) = some st →
      nextFrom decode false input = (.ok st, rest)) ∧
    (sseStream.Next decode exampleStream).1 = .ok processingT ∧
    (sseStream.Next decode (sseStream.Next decode exampleStream).2).1 =
      .ok completedT ∧
    (sseStream.Next decode (sseStream.Next decode
      (sseStream.Next decode exampleStream).2).2).1 = .error .endOfStream := by
  have hpay1 : trimChars ((trimChars ("data: ".toList ++ payload1 ++ ['\n'])).drop 5) =
      payload1 := by decide
  have step1 : nextFrom decode false exampleBytes =
      (.ok processingT,
        '\n' :: ("data: ".toList ++ payload2 ++ "\n\n".toList)) :=
    nextFrom_dataLine decode exampleBytes
      ("data: ".toList ++ payload1 ++ ['\n'])
      ('\n' :: ("data: ".toList ++ payload2 ++ "\n\n".toList))
      processingT (by decide) (by decide) (by decide) (by rw [hpay1]; exact h1)
  have step2a : nextFrom decode false
      ('\n' :: ("data: ".toList ++ payload2 ++ "\n\n".toList)) =
      nextFrom decode false ("data: ".toList ++ payload2 ++ "\n\n".toList) :=
    nextFrom_skipLine decode
      ('\n' :: ("data: ".toList ++ payload2 ++ "\n\n".toList))
      ['\n'] ("data: ".toList ++ payload2 ++ "\n\n".toList)
      (by decide) (by decide)
  have hpay2 : trimChars ((trimChars ("data: ".toList ++ payload2 ++ ['\n'])).drop 5) =
      payload2 := by decide
  have step2b : nextFrom decode false ("data: ".toList ++ payload2 ++ "\n\n".toList) =
      (.ok completedT, ['\n']) :=
    nextFrom_dataLine decode ("data: ".toList ++ payload2 ++ "\n\n".toList)
      ("data: ".toList ++ payload2 ++ ['\n']) ['\n']
      completedT (by decide) (by decide) (by decide) (by rw [hpay2]; exact h2)
  have step3a : nextFrom decode false ['\n'] = nextFrom decode false [] :=
    nextFrom_skipLine decode ['\n'] ['\n'] [] (by decide) (by decide)
  have step3b : nextFrom decode false ([] : List Char) =
      (.error .endOfStream, []) :=
    nextFrom_eof decode [] (by decide)
  have n1 : sseStream.Next decode exampleStream =
      (.ok processingT,
        { cancelled := false,
          input := '\n' :: ("data: ".toList ++ payload2 ++ "\n\n".toList) }) := by
    simp only [sseStream.Next_def, exampleStream]
    rw [step1]
  have n2 : sseStream.Next decode
      { cancelled := false,
        input := '\n' :: ("data: ".toList ++ payload2 ++ "\n\n".toList) } =
      (.ok completedT, { cancelled := false, input := ['\n'] }) := by
    simp only [sseStream.Next_def]
    rw [step2a, step2b]
  have n3 : sseStream.Next decode { cancelled := false, input := ['\n'] } =
      (.error .endOfStream, { cancelled := false, input := [] }) := by
    simp only [sseStream.Next_def]
    rw [step3a, step3b]
  refine ⟨fun input l rest h hs => nextFrom_skipLine decode input l rest h hs,
    fun input l rest st h hne hd hdec =>
      nextFrom_dataLine decode input l rest st h hne hd hdec, ?_, ?_, ?_⟩
  · rw [n1]
  · rw [n1, n2]
  · rw [n1, n2, n3]

/-! ## Poller lemmas -/

/-- Running the poll loop across `N` leading iterations that each fetch a
non-terminal status without the wait being cancelled: the loop reaches
iteration `start + N`, having performed `N` extra fetches and recorded the
`N` statuses, in fetch order, as callback invocations. -/
theorem pollFrom_skip (fetch : Nat → Except String TaskStatus)
    (cancelW : Nat → Bool) (st : Nat → TaskStatus) :
    ∀ (N start r : Nat), N ≤ r →
      (∀ j, j < N → fetch (start + j) = .ok (st (start + j)) ∧
        (st (start + j)).status ≠ "completed" ∧
        (st (start + j)).status ≠ "failed" ∧
        cancelW (start + j) = false) →
      pollFrom fetch cancelW start r =
        { finalStatus := (pollFrom fetch cancelW (start + N) (r - N)).finalStatus,
          errMsg := (pollFrom fetch cancelW (start + N) (r - N)).errMsg,
          fetches := (pollFrom fetch cancelW (start + N) (r - N)).fetches + N,
          callbackCalls := (List.range N).map (fun j => st (start + j)) ++
            (pollFrom fetch cancelW (start + N) (r - N)).callbackCalls } := by
  intro N
  induction N with
  | zero =>
    intro start r _ _
    simp
  | succ N ih =>
    intro start r hNr hok
    obtain ⟨r', rfl⟩ : ∃ r', r = r' + 1 := ⟨r - 1, by omega⟩
    have h0 := hok 0 (Nat.succ_pos N)
    rw [Nat.add_zero] at h0
    have hok' : ∀ j, j < N → fetch (start + 1 + j) = .ok (st (start + 1 + j)) ∧
        (st (start + 1 + j)).status ≠ "completed" ∧
        (st (start + 1 + j)).status ≠ "failed" ∧
        cancelW (start + 1 + j) = false := by
      intro j hj
      have := hok (j + 1) (by omega)
      rw [show start + (j + 1) = start + 1 + j by omega] at this
      exact this
    have e1 : start + (N + 1) = start + 1 + N := by omega
    have e2 : r' + 1 - (N + 1) = r' - N := by omega
    have hmap : (List.range (N + 1)).map (fun j => st (start + j)) =
        st start :: (List.range N).map (fun j => st (start + 1 + j)) := by
      rw [List.range_succ_eq_map, List.map_cons, List.map_map]
      refine congrArg₂ List.cons (congrArg st (Nat.add_zero start)) ?_
      refine List.map_congr_left ?_
      intro j _
      show st (start + (j + 1)) = st (start + 1 + j)
      congr 1
      omega
    rw [e1, e2, hmap]
    simp only [pollFrom, h0.1]
    rw [if_neg h0.2.1, if_neg h0.2.2.1, if_neg (by rw [h0.2.2.2]; simp)]
    rw [ih (start + 1) r' (by omega) hok']
    simp
    omega

/-- C2: if fetches `0..N-1` yield non-terminal statuses (no wait cancelled)
and fetch `N` yields a completed status, with `N` below the effective
attempt bound, then `WaitForCompletion` returns that completed status with
no error after exactly `N + 1` fetches, and the callback is invoked exactly
`N + 1` times, once per fetched status in fetch order — including the final
completed status, since the Go code calls the callback before the
terminal-state checks. -/
theorem claim_C2_poll_until_completed (fetch : Nat → Except String TaskStatus)
    (cancelW : Nat → Bool) (st : Nat → TaskStatus)
    (N pollIntervalMs maxAttempts : Nat)
    (hN : N < effMaxAttempts maxAttempts)
    (hok : ∀ j, j < N → fetch j = .ok (st j) ∧ (st j).status ≠ "completed" ∧
      (st j).status ≠ "failed" ∧ cancelW j = false)
    (hlast : fetch N = .ok (st N)) (hcomp : (st N).status = "completed") :
    WaitForCompletion fetch cancelW pollIntervalMs maxAttempts =
      { finalStatus := st N, errMsg := none, fetches := N + 1,
        callbackCalls := (List.range (N + 1)).map st } := by
  unfold WaitForCompletion
  rw [pollFrom_skip fetch cancelW st N 0 (effMaxAttempts maxAttempts) (by omega)
    (by intro j hj; simpa using hok j hj)]
  simp only [Nat.zero_add]
  obtain ⟨k, hk⟩ : ∃ k, effMaxAttempts maxAttempts - N = k + 1 :=
    ⟨effMaxAttempts maxAttempts - N - 1, by omega⟩
  rw [hk]
  simp only [pollFrom, hlast, if_pos hcomp]
  simp [List.range_succ, Nat.add_comm]

/-- A terminal failed status with an error message, used as a concrete
input. -/
def failedT : TaskStatus :=
  { taskId := "t", status := "failed", result := none, error := some "boom",
    warnings := [], metadata := [] }

/-- Witness for C2 at a concrete input: one processing fetch, then a
completed fetch, inside a bound of 3. -/
theorem claim_C2_witness :
    WaitForCompletion (fun j => .ok (if j = 0 then processingT else completedT))
      (fun _ => false) 1 3 =
      { finalStatus := completedT, errMsg := none, fetches := 2,
        callbackCalls := [processingT, completedT] } := by
  have h := claim_C2_poll_until_completed
    (fun j => .ok (if j = 0 then processingT else completedT)) (fun _ => false)
    (fun j => if j = 0 then processingT else completedT) 1 1 3
    (by decide)
    (by
      intro j hj
      have hj0 : j = 0 := by omega
      subst hj0
      exact ⟨rfl, by decide, by decide, rfl⟩)
    rfl (by decide)
  exact h.trans (by decide)

/-- C3: if fetches `0..N-1` yield non-terminal statuses and fetch `N`
yields a status `"failed"`, `WaitForCompletion` terminates on that
iteration (`N + 1` fetches) with the failed status returned alongside a
`task failed` error whose message is `"task failed: "` followed by the
status's `error` field when present, and the generic
`"task failed: task failed"` otherwise. -/
theorem claim_C3_failed_status (fetch : Nat → Except String TaskStatus)
    (cancelW : Nat → Bool) (st : Nat → TaskStatus)
    (N pollIntervalMs maxAttempts : Nat)
    (hN : N < effMaxAttempts maxAttempts)
    (hok : ∀ j, j < N → fetch j = .ok (st j) ∧ (st j).status ≠ "completed" ∧
      (st j).status ≠ "failed" ∧ cancelW j = false)
    (hlast : fetch N = .ok (st N)) (hfail : (st N).status = "failed") :
    WaitForCompletion fetch cancelW pollIntervalMs maxAttempts =
      { finalStatus := st N,
        errMsg := some (.taskFailed ("task failed: " ++ (st N).error.getD "task failed")),
        fetches := N + 1,
        callbackCalls := (List.range (N + 1)).map st } ∧
    (∀ m, (st N).error = some m →
      (WaitForCompletion fetch cancelW pollIntervalMs maxAttempts).errMsg =
        some (.taskFailed ("task failed: " ++ m))) ∧
    ((st N).error = none →
      (WaitForCompletion fetch cancelW pollIntervalMs maxAttempts).errMsg =
        some (.taskFailed "task failed: task failed")) := by
  have hncomp : (st N).status ≠ "completed" := by rw [hfail]; decide
  have hmain : WaitForCompletion fetch cancelW pollIntervalMs maxAttempts =
      { finalStatus := st N,
        errMsg := some (.taskFailed ("task failed: " ++ (st N).error.getD "task failed")),
        fetches := N + 1,
        callbackCalls := (List.range (N + 1)).map st } := by
    unfold WaitForCompletion
    rw [pollFrom_skip fetch cancelW st N 0 (effMaxAttempts maxAttempts) (by omega)
      (by intro j hj; simpa using hok j hj)]
    simp only [Nat.zero_add]
    obtain ⟨k, hk⟩ : ∃ k, effMaxAttempts maxAttempts - N = k + 1 :=
      ⟨effMaxAttempts maxAttempts - N - 1, by omega⟩
    rw [hk]
    simp only [pollFrom, hlast]
    rw [if_neg hncomp, if_pos hfail]
    simp [List.range_succ, Nat.add_comm]
  refine ⟨hmain, ?_, ?_⟩
  · intro m hm
    rw [hmain, hm]
    rfl
  · intro hm
    rw [hmain, hm]
    rfl

/-- Witness for C3 at a concrete input: the first fetch is failed with
error message "boom"; the error message carries "boom" and the failed
status is returned. -/
theorem claim_C3_witness :
    WaitForCompletion (fun _ => .ok failedT) (fun _ => false) 1 1 =
      { finalStatus := failedT,
        errMsg := some (.taskFailed "task failed: boom"),
        fetches := 1, callbackCalls := [failedT] } := by
  have h := claim_C3_failed_status (fun _ => .ok failedT) (fun _ => false)
    (fun _ => failedT) 0 1 1 (by decide)
    (by intro j hj; exact absurd hj (Nat.not_lt_zero j))
    rfl (by decide)
  exact h.1.trans (by decide)

/-- C4: if every one of the (effective, nonzero) `maxAttempts` fetches
succeeds with a status that is neither completed nor failed, and no wait is
cancelled, `WaitForCompletion` performs exactly `maxAttempts` fetches and
then fails with the timeout error.  (Cancellation during a wait would
prevent the later fetches from happening at all, so the claim's premise
that all `maxAttempts` fetches occur requires the no-cancellation
hypothesis.) -/
theorem claim_C4_timeout (fetch : Nat → Except String TaskStatus)
    (cancelW : Nat → Bool) (st : Nat → TaskStatus)
    (pollIntervalMs maxAttempts : Nat) (hmaxA : maxAttempts ≠ 0)
    (hok : ∀ j, j < maxAttempts → fetch j = .ok (st j) ∧
      (st j).status ≠ "completed" ∧ (st j).status ≠ "failed" ∧
      cancelW j = false) :
    WaitForCompletion fetch cancelW pollIntervalMs maxAttempts =
      { finalStatus := TaskStatus.empty, errMsg := some .timeout,
        fetches := maxAttempts, callbackCalls := (List.range maxAttempts).map st } := by
  have heff : effMaxAttempts maxAttempts = maxAttempts := if_neg hmaxA
  unfold WaitForCompletion
  rw [heff]
  rw [pollFrom_skip fetch cancelW st maxAttempts 0 maxAttempts (by omega)
    (by intro j hj; simpa using hok j hj)]
  simp [pollFrom]

/-- Witness for C4 at a concrete input: two processing fetches with bound 2
end in the timeout error after exactly two fetches. -/
theorem claim_C4_witness :
    WaitForCompletion (fun _ => .ok processingT) (fun _ => false) 1 2 =
      { finalStatus := TaskStatus.empty, errMsg := some .timeout,
        fetches := 2, callbackCalls := [processingT, processingT] } := by
  have h := claim_C4_timeout (fun _ => .ok processingT) (fun _ => false)
    (fun _ => processingT) 1 2 (by decide)
    (by
      intro j hj
      exact ⟨rfl, by show processingT.status ≠ "completed"; decide,
        by show processingT.status ≠ "failed"; decide, rfl⟩)
  exact h.trans (by decide)

/-- C7: if fetches `0..i-1` were non-terminal and fetch `i` yields one more
non-terminal status, and the caller's cancellation signal fires during the
inter-poll wait of iteration `i`, then `WaitForCompletion` returns without
performing another fetch (`i + 1` fetches in total), with the `Cancelled`
error (`ctx.Err()`) and the last observed status `st i`. -/
theorem claim_C7_cancel_during_wait (fetch : Nat → Except String TaskStatus)
    (cancelW : Nat → Bool) (st : Nat → TaskStatus)
    (i pollIntervalMs maxAttempts : Nat)
    (hi : i < effMaxAttempts maxAttempts)
    (hok : ∀ j, j < i → fetch j = .ok (st j) ∧ (st j).status ≠ "completed" ∧
      (st j).status ≠ "failed" ∧ cancelW j = false)
    (hfi : fetch i = .ok (st i)) (hnt1 : (st i).status ≠ "completed")
    (hnt2 : (st i).status ≠ "failed") (hcanc : cancelW i = true) :
    WaitForCompletion fetch cancelW pollIntervalMs maxAttempts =
      { finalStatus := st i, errMsg := some .cancelled, fetches := i + 1,
        callbackCalls := (List.range (i + 1)).map st } := by
  unfold WaitForCompletion
  rw [pollFrom_skip fetch cancelW st i 0 (effMaxAttempts maxAttempts) (by omega)
    (by intro j hj; simpa using hok j hj)]
  simp only [Nat.zero_add]
  obtain ⟨k, hk⟩ : ∃ k, effMaxAttempts maxAttempts - i = k + 1 :=
    ⟨effMaxAttempts maxAttempts - i - 1, by omega⟩
  rw [hk]
  simp only [pollFrom, hfi]
  rw [if_neg hnt1, if_neg hnt2, if_pos hcanc]
  simp [List.range_succ, Nat.add_comm]

/-- Witness for C7 at a concrete input: the first fetch is processing and
cancellation fires during the first wait; the poll ends after one fetch
with the cancelled error and the processing status. -/
theorem claim_C7_witness :
    WaitForCompletion (fun _ => .ok processingT) (fun _ => true) 1 3 =
      { finalStatus := processingT, errMsg := some .cancelled, fetches := 1,
        callbackCalls := [processingT] } := by
  have h := claim_C7_cancel_during_wait (fun _ => .ok processingT)
    (fun _ => true) (fun _ => processingT) 0 1 3 (by decide)
    (by intro j hj; exact absurd hj (Nat.not_lt_zero j))
    rfl (by show processingT.status ≠ "completed"; decide)
    (by show processingT.status ≠ "failed"; decide) rfl
  exact h.trans (by decide)

/-- C9: a fetched status whose `status` string is neither `"completed"` nor
`"failed"` — whatever else it is, including unknown values — is passed to
the callback exactly as decoded and treated as non-terminal: the loop
neither returns nor rejects it, but proceeds through the inter-poll wait to
the next iteration, whose outcome it extends with one more fetch and the
preserved status at the head of the callback trace. -/
theorem claim_C9_unknown_status_nonterminal
    (fetch : Nat → Except String TaskStatus) (cancelW : Nat → Bool)
    (i r : Nat) (s : TaskStatus)
    (hf : fetch i = .ok s) (h1 : s.status ≠ "completed")
    (h2 : s.status ≠ "failed") (hc : cancelW i = false) :
    pollFrom fetch cancelW i (r + 1) =
      { finalStatus := (pollFrom fetch cancelW (i + 1) r).finalStatus,
        errMsg := (pollFrom fetch cancelW (i + 1) r).errMsg,
        fetches := (pollFrom fetch cancelW (i + 1) r).fetches + 1,
        callbackCalls := s :: (pollFrom fetch cancelW (i + 1) r).callbackCalls } := by
  simp only [pollFrom, hf]
  rw [if_neg h1, if_neg h2, if_neg (by rw [hc]; simp)]

/-- A status carrying a status string unknown to the SDK, used as a
concrete input. -/
def unknownT : TaskStatus :=
  { taskId := "t", status := "queued-by-newer-server", result := none,
    error := none, warnings := [], metadata := [] }

/-- Witness for C9 at a concrete input: an unrecognized status string is
preserved verbatim in the callback trace and the loop continues. -/
theorem claim_C9_witness :
    pollFrom (fun _ => .ok unknownT) (fun _ => false) 0 (1 + 1) =
      { finalStatus := (pollFrom (fun _ => .ok unknownT) (fun _ => false) 1 1).finalStatus,
        errMsg := (pollFrom (fun _ => .ok unknownT) (fun _ => false) 1 1).errMsg,
        fetches := (pollFrom (fun _ => .ok unknownT) (fun _ => false) 1 1).fetches + 1,
        callbackCalls :=
          unknownT :: (pollFrom (fun _ => .ok unknownT) (fun _ => false) 1 1).callbackCalls } :=
  claim_C9_unknown_status_nonterminal (fun _ => .ok unknownT) (fun _ => false)
    0 1 unknownT rfl (by show unknownT.status ≠ "completed"; decide)
    (by show unknownT.status ≠ "failed"; decide) rfl

/-- On every run of the poll loop: if it ends in success, task-failure or
cancellation, the returned status is the last status passed to the callback
(the last successfully fetched one); if it ends in timeout or a fetch
error, the zero `TaskStatus` is returned instead. -/
theorem pollFrom_last_status (fetch : Nat → Except String TaskStatus)
    (cancelW : Nat → Bool) :
    ∀ (r start : Nat),
      (((pollFrom fetch cancelW start r).errMsg = none ∨
        (∃ m, (pollFrom fetch cancelW start r).errMsg = some (.taskFailed m)) ∨
        (pollFrom fetch cancelW start r).errMsg = some .cancelled) →
        (pollFrom fetch cancelW start r).callbackCalls.getLast? =
          some (pollFrom fetch cancelW start r).finalStatus) ∧
      (((pollFrom fetch cancelW start r).errMsg = some .timeout ∨
        (∃ e, (pollFrom fetch cancelW start r).errMsg = some (.fetchError e))) →
        (pollFrom fetch cancelW start r).finalStatus = TaskStatus.empty) := by
  intro r
  induction r with
  | zero =>
    intro start
    constructor
    · intro h
      rcases h with h | ⟨m, h⟩ | h <;> simp [pollFrom] at h
    · intro _
      rfl
  | succ r ih =>
    intro start
    cases hf : fetch start with
    | error e =>
      simp only [pollFrom, hf]
      constructor
      · intro h
        rcases h with h | ⟨m, h⟩ | h <;> simp at h
      · intro _
        trivial
    | ok s =>
      simp only [pollFrom, hf]
      by_cases hcm : s.status = "completed"
      · rw [if_pos hcm]
        refine ⟨fun _ => rfl, fun h => ?_⟩
        rcases h with h | ⟨e, h⟩ <;> simp at h
      · rw [if_neg hcm]
        by_cases hfl : s.status = "failed"
        · rw [if_pos hfl]
          refine ⟨fun _ => rfl, fun h => ?_⟩
          rcases h with h | ⟨e, h⟩ <;> simp at h
        · rw [if_neg hfl]
          by_cases hcw : cancelW start = true
          · rw [if_pos hcw]
            refine ⟨fun _ => rfl, fun h => ?_⟩
            rcases h with h | ⟨e, h⟩ <;> simp at h
          · rw [if_neg hcw]
            obtain ⟨ih1, ih2⟩ := ih (start + 1)
            constructor
            · intro h
              have h' := ih1 (by simpa using h)
              cases hcb : (pollFrom fetch cancelW (start + 1) r).callbackCalls with
              | nil =>
                rw [hcb] at h'
                simp at h'
              | cons a l =>
                rw [hcb] at h'
                simpa [List.getLast?_cons_cons, hcb] using h'
            · intro h
              exact ih2 (by simpa using h)

/-- C1 as stated is false: on the Timeout terminal path (and on a fetch
error after successful fetches) `WaitForCompletion` returns the zero
`TaskStatus`, not the last successfully fetched one.  Concrete input: a
single successful `processing` fetch with `maxAttempts = 1` ends in the
timeout error; the callback trace records the fetched status, yet the
returned status differs from it (it is the zero value). -/
theorem claim_C1_counterexample :
    (WaitForCompletion (fun _ => .ok processingT) (fun _ => false) 1 1).errMsg =
      some .timeout ∧
    (WaitForCompletion (fun _ => .ok processingT) (fun _ => false) 1 1).callbackCalls =
      [processingT] ∧
    (WaitForCompletion (fun _ => .ok processingT) (fun _ => false) 1 1).finalStatus ≠
      processingT := by decide

/-- C1 (amended): on the success, task-failed and cancelled terminal paths,
`WaitForCompletion` returns the last successfully fetched status (the last
entry of the callback trace) alongside the result or error; on the timeout
path and on fetch-error paths it returns the zero `TaskStatus` instead,
even when earlier fetches succeeded. -/
theorem claim_C1_amended_last_status (fetch : Nat → Except String TaskStatus)
    (cancelW : Nat → Bool) (pollIntervalMs maxAttempts : Nat) :
    (((WaitForCompletion fetch cancelW pollIntervalMs maxAttempts).errMsg = none ∨
      (∃ m, (WaitForCompletion fetch cancelW pollIntervalMs maxAttempts).errMsg =
        some (.taskFailed m)) ∨
      (WaitForCompletion fetch cancelW pollIntervalMs maxAttempts).errMsg =
        some .cancelled) →
      (WaitForCompletion fetch cancelW pollIntervalMs maxAttempts).callbackCalls.getLast? =
        some (WaitForCompletion fetch cancelW pollIntervalMs maxAttempts).finalStatus) ∧
    (((WaitForCompletion fetch cancelW pollIntervalMs maxAttempts).errMsg =
        some .timeout ∨
      (∃ e, (WaitForCompletion fetch cancelW pollIntervalMs maxAttempts).errMsg =
        some (.fetchError e))) →
      (WaitForCompletion fetch cancelW pollIntervalMs maxAttempts).finalStatus =
        TaskStatus.empty) :=
  pollFrom_last_status fetch cancelW (effMaxAttempts maxAttempts) 0

/-- Witness for the amended C1 at a concrete input: a completed first fetch
ends with the returned status equal to the last callback entry. -/
theorem claim_C1_witness :
    (WaitForCompletion (fun _ => .ok completedT) (fun _ => false) 1 1).callbackCalls.getLast? =
      some (WaitForCompletion (fun _ => .ok completedT) (fun _ => false) 1 1).finalStatus :=
  (claim_C1_amended_last_status (fun _ => .ok completedT) (fun _ => false) 1 1).1
    (Or.inl (by decide))

/-- C8: for every network oracle and every options value, submitting an
empty prompt fails with the invalid-argument error "prompt is required" and
performs zero network requests. -/
theorem claim_C8_empty_prompt (net : SubmitRequest → Except String SubmitResponse)
    (opts : Option TaskSubmissionOptions) :
    SubmitTask net "" opts = (.error (.invalidArgument "prompt is required"), 0) := by
  simp [SubmitTask]

/-- C10: when the submission response has status 200 or 202 and a valid
JSON object body with no `taskId` field, `SubmitTask` succeeds and returns
the empty string as the task identifier (Go's `encoding/json` leaves the
struct field at its zero value), with no error about the missing
identifier. -/
theorem claim_C10_missing_taskId (net : SubmitRequest → Except String SubmitResponse)
    (prompt : String) (opts : Option TaskSubmissionOptions)
    (obj : List (String × String)) (code : Nat)
    (hp : prompt ≠ "") (hcode : code = 200 ∨ code = 202)
    (hnet : net (submitRequestFor prompt opts) =
      .ok { statusCode := code, bodyJson := some obj })
    (hno : obj.lookup "taskId" = none) :
    SubmitTask net prompt opts = (.ok "", 1) := by
  unfold SubmitTask
  rw [if_neg hp]
  rcases hcode with h | h <;> subst h <;> simp [hnet, hno]

/-- Witness for C10 at a concrete input: status 200 with body equivalent to
the empty JSON object yields the empty task identifier with no error. -/
theorem claim_C10_witness :
    SubmitTask (fun _ => .ok { statusCode := 200, bodyJson := some [] }) "p" none =
      (.ok "", 1) :=
  claim_C10_missing_taskId
    (fun _ => .ok { statusCode := 200, bodyJson := some [] }) "p" none [] 200
    (by decide) (Or.inl rfl) rfl rfl

/-- A concrete stand-in for `json.Unmarshal` defined on exactly the two
example payloads, used to instantiate the C5 theorem. -/
def sampleDecode (cs : List Char) : Option TaskStatus :=
  if cs = payload1 then some processingT
  else if cs = payload2 then some completedT
  else none

/-- Witness for C5 at a concrete decode function: on the example bytes the
three successive `Next` calls return the processing status, the completed
status, and then the end-of-stream error. -/
theorem claim_C5_witness :
    (sseStream.Next sampleDecode exampleStream).1 = .ok processingT ∧
    (sseStream.Next sampleDecode (sseStream.Next sampleDecode exampleStream).2).1 =
      .ok completedT ∧
    (sseStream.Next sampleDecode (sseStream.Next sampleDecode
      (sseStream.Next sampleDecode exampleStream).2).2).1 = .error .endOfStream := by
  have h := claim_C5_stream_decoding sampleDecode (by decide) (by decide)
  exact ⟨h.2.2.1, h.2.2.2.1, h.2.2.2.2⟩
